import Mathlib

/-!
Verification development for the Otter autoscaling controller.

Each Python function of the repository that a claim touches is embedded as a
Lean definition, translated from the source:

* `otter/controller.py` — cooldowns, desired-capacity arithmetic, clamping.
* `otter/util/pure_http.py` — the auth-injection request layer.
* `otter/scheduler.py` — cron event re-insertion after a batch.
* `otter/convergence/selfheal.py` — lock check and converge scheduling.
* `otter/worker/heat_client.py` — stack update error classification.
* `otter/convergence/__init__.py` — the convergence planner (absent from the
  tree, modelled from the specification, guided by its tests that are in the
  tree).

Machine integers are embedded as `Int`/`Nat`; Python floats and `Decimal`
values are embedded as exact rationals `Rat` (the idealised arithmetic the
specification describes); fallible code returns `Except`.
-/

namespace Otter

/-! ## Controller: `otter/controller.py` -/

/-- Modelled from the spec: the hard cap on group capacity, 25.  The constant
is imported in `controller.py` from `otter.json_schema.group_schemas`, a module
absent from the tree; the spec states the hard cap is 25. -/
def MAX_ENTITIES : Int := 25

/-- Scaling-group config, the fields used by `controller.py`.  A `maxEntities`
of `none` embeds the Python value `None`. -/
structure GroupConfig where
  minEntities : Int
  maxEntities : Option Int
  cooldown : Rat
  deriving DecidableEq

/-- Embedding of `controller.constrain_desired` (controller.py:310-326):
`max_entities = config[ \x27maxEntities\x27 ]`, replaced by `MAX_ENTITIES` when
it is `None`, then `max(min(desired, max_entities), config[ \x27minEntities\x27 ])`. -/
def constrain_desired (desired : Int) (config : GroupConfig) : Int :=
  let max_entities :=
    match config.maxEntities with
    | none => MAX_ENTITIES
    | some m => m
  max (min desired max_entities) config.minEntities

/-- Policy adjustment: exactly one of `change`, `changePercent`,
`desiredCapacity` (controller.py:290-301). -/
inductive Adjustment where
  | change (c : Int)
  | changePercent (p : Rat)
  | desiredCapacity (d : Int)
  deriving DecidableEq

/-- Embedding of Python `Decimal.to_integral_value(ROUND_UP)`: round to an
integer away from zero (ceiling for non-negative, floor for negative). -/
def decimalRoundUp (x : Rat) : Int :=
  if 0 ≤ x then ⌈x⌉ else ⌊x⌋

/-- Embedding of `controller.calculate_desired` (controller.py:278-307).
`Decimal` arithmetic on `current * percentage / 100` is embedded as exact
rational arithmetic. -/
def calculate_desired (current : Int) (adjustment : Adjustment) : Int :=
  match adjustment with
  | .change c => current + c
  | .changePercent p => current + decimalRoundUp (current * (p / 100))
  | .desiredCapacity d => d

/-- Scaling-policy fields used by the controller. -/
structure Policy where
  cooldown : Rat
  adjustment : Adjustment
  deriving DecidableEq

/-- Group state fields used by the controller (timestamps are embedded as
rational seconds since the epoch; `policy_touched` is an association list,
`group_touched` an optional timestamp). -/
structure GroupState where
  desired : Int
  policy_touched : List (String × Rat)
  group_touched : Option Rat
  deriving DecidableEq

/-- Embedding of `controller.check_cooldowns` (controller.py:245-275): for
each of `(policy_touched.get(policy_id), policy.cooldown)` and
`(group_touched, config.cooldown)`, if the prior timestamp exists and
`now - prior < cooldown` the check fails.  `datetime.now(UTC)` is passed in
as `now`. -/
def check_cooldowns (now : Rat) (state : GroupState) (config : GroupConfig)
    (policy : Policy) (policy_id : String) : Bool :=
  let timestamp_and_cooldowns : List (Option Rat × Rat) :=
    [(state.policy_touched.lookup policy_id, policy.cooldown),
     (state.group_touched, config.cooldown)]
  timestamp_and_cooldowns.all fun tc =>
    match tc.1 with
    | none => true
    | some last_time => decide (¬ (now - last_time < tc.2))

/-- Embedding of `GroupState.mark_executed`.  Modelled from the spec: the
method lives in `otter/models/interface.py`, absent from the tree; the spec
says it records `policyTouched[policyId] = groupTouched = now`. -/
def mark_executed (state : GroupState) (policy_id : String) (now : Rat) :
    GroupState :=
  { state with
    policy_touched := (policy_id, now) :: state.policy_touched
    group_touched := some now }

/-- Error raised by `maybe_execute_scaling_policy` when cooldowns are not
met (controller.py:38-45,199-201). -/
inductive ControllerError where
  | cannotExecutePolicy
  deriving DecidableEq

/-- Embedding of the decision core of `controller.maybe_execute_scaling_policy`
(controller.py:174-201): when `check_cooldowns` passes, compute the new
desired from the current one, constrain it, and mark the policy executed;
otherwise raise `CannotExecutePolicyError`. -/
def maybe_execute_scaling_policy (now : Rat) (state : GroupState)
    (config : GroupConfig) (policy : Policy) (policy_id : String) :
    Except ControllerError GroupState :=
  if check_cooldowns now state config policy policy_id then
    let current := state.desired
    let desired := calculate_desired current policy.adjustment
    let state1 := { state with desired := constrain_desired desired config }
    .ok (mark_executed state1 policy_id now)
  else
    .error .cannotExecutePolicy

/-! ## HTTP auth layer: `otter/util/pure_http.py`

The effectful pipeline is embedded with explicit traces: the request effect is
a function from headers to a response, and each layer returns the list of
observable events it performs (requests issued, cache invalidations), so that
"how many times the request was driven" is a property of the embedding rather
than a stipulation. -/

/-- HTTP response as the effect result: `(status code, content)`. -/
structure HttpResult where
  code : Nat
  content : String
  deriving DecidableEq

/-- Observable events of the auth pipeline: an issued request carrying its
headers, or an invalidation of the cached auth info. -/
inductive HttpEvent where
  | req (headers : List (String × String))
  | invalidate
  deriving DecidableEq

/-- Embedding of `toolz.dicttoolz.merge(req_headers, auth_headers)`
(pure_http.py:57): keys of the second mapping win on conflict. -/
def mergeHeaders (base auth : List (String × String)) :
    List (String × String) :=
  base.filter (fun kv => (auth.lookup kv.1).isNone) ++ auth

/-- Embedding of `pure_http.auth_request` (pure_http.py:47-60): merge the
auth headers over the caller headers (auth wins) and issue the request once.
`get_auth_headers` has already been resolved to `auth_headers`; the returned
trace records the single request. -/
def auth_request (get_request : List (String × String) → HttpResult)
    (auth_headers : List (String × String))
    (headers : Option (List (String × String))) :
    HttpResult × List HttpEvent :=
  let req_headers := mergeHeaders (headers.getD []) auth_headers
  (get_request req_headers, [.req req_headers])

/-- Embedding of `pure_http.refresh_auth_on_error` (pure_http.py:63-76): when
the response code is in `reauth_codes`, invalidate the cached auth info and
return the result unchanged; otherwise return the result. -/
def refresh_auth_on_error (reauth_codes : List Nat) (result : HttpResult) :
    HttpResult × List HttpEvent :=
  if result.code ∈ reauth_codes then
    (result, [.invalidate])
  else
    (result, [])

/-- Embedding of `pure_http.request_with_auth` (pure_http.py:79-95): compose
`auth_request` with `refresh_auth_on_error`. -/
def request_with_auth (get_request : List (String × String) → HttpResult)
    (auth_headers : List (String × String))
    (headers : Option (List (String × String)))
    (reauth_codes : List Nat) :
    HttpResult × List HttpEvent :=
  let (result, trace1) := auth_request get_request auth_headers headers
  let (result2, trace2) := refresh_auth_on_error reauth_codes result
  (result2, trace1 ++ trace2)

/-- Counts the request events of a trace. -/
def countRequests (trace : List HttpEvent) : Nat :=
  trace.countP fun e =>
    match e with
    | .req _ => true
    | .invalidate => false

/-! ## Heat client: `otter/worker/heat_client.py`

Bodies of error responses are embedded after JSON parsing: `errorMessage`
is `some m` exactly when the parsed body has an `error` object carrying a
`message` field equal to `m` (heat_client.py:100-104 reads
`json_body[ \x27error\x27 ][ \x27message\x27 ]` after checking both keys). -/

/-- Orchestration response as seen by `update_stack`: status code plus the
parsed body view. -/
structure HeatResponse where
  code : Nat
  errorMessage : Option String
  deriving DecidableEq

/-- Errors raised by the `update_stack` pipeline. -/
inductive HeatError where
  | updateInProgress
  | apiError (code : Nat) (errorMessage : Option String)
  deriving DecidableEq

/-- The message opening that heat_client.py:102-104 matches with
`startswith`. -/
def updateInProgressMessage : String :=
  "Updating a stack when another action is in progress is not supported"

/-- Embedding of `otter.util.http.check_success`.  Modelled from the spec:
the helper lives in `otter/util/http.py`, absent from the tree; the spec says
the status check fails with `APIError(code, body)` when the status is not in
`success_codes`. -/
def check_success (success_codes : List Nat) (response : HeatResponse) :
    Except HeatError HeatResponse :=
  if response.code ∈ success_codes then
    .ok response
  else
    .error (.apiError response.code response.errorMessage)

/-- Embedding of the `check_update_in_progress` errback
(heat_client.py:97-106): trap an `APIError` with code 400 whose JSON body has
an `error.message` starting with `updateInProgressMessage` and turn it into
`UpdateInProgressError`; every other failure passes through. -/
def check_update_in_progress (failure : HeatError) : HeatError :=
  match failure with
  | .apiError c msg? =>
      if c = 400 then
        match msg? with
        | some msg =>
            if msg.startsWith updateInProgressMessage then
              .updateInProgress
            else
              .apiError c msg?
        | none => .apiError c msg?
      else
        .apiError c msg?
  | other => other

/-- Embedding of `otter.util.http.raise_error_on_code` as used at
heat_client.py:112-113.  Modelled from the spec: the helper lives in
`otter/util/http.py`, absent from the tree; per the spec it traps an
`APIError` with the given code, replaces it by the given error, and lets any
other failure propagate unchanged. -/
def raise_error_on_code (failure : HeatError) (code : Nat)
    (error : HeatError) : HeatError :=
  match failure with
  | .apiError c _ => if c = code then error else failure
  | _ => failure

/-- Embedding of `HeatClient.update_stack` (heat_client.py:62-114): a 202 is
success (the content is discarded); otherwise the `APIError` runs through
`check_update_in_progress` and then through `raise_error_on_code 409`. -/
def update_stack (response : HeatResponse) : Except HeatError Unit :=
  match check_success [202] response with
  | .ok _ => .ok ()
  | .error failure =>
      .error (raise_error_on_code (check_update_in_progress failure) 409
        .updateInProgress)

/-! ## Scheduler: `otter/scheduler.py` -/

/-- Scheduled event, the fields `add_cron_events` and `execute_event` use
(scheduler.py:156-221).  `cron` is `none` for the Python `None`; the trigger
is a timestamp in rational seconds. -/
structure SchedEvent where
  tenantId : String
  groupId : String
  policyId : String
  trigger : Rat
  cron : Option String
  version : Nat
  deriving DecidableEq

/-- Outcome of executing one event through
`modify_and_trigger(maybe_execute_scaling_policy)` (scheduler.py:183-221). -/
inductive ExecOutcome where
  | ok
  | cannotExecutePolicy
  | noSuchScalingGroup
  | noSuchPolicy
  | otherError
  deriving DecidableEq

/-- The `collect_deleted_policy` errback of `execute_event`
(scheduler.py:215-217) traps exactly `NoSuchScalingGroupError` and
`NoSuchPolicyError`. -/
def collectsDeleted (outcome : ExecOutcome) : Bool :=
  match outcome with
  | .noSuchScalingGroup => true
  | .noSuchPolicy => true
  | _ => false

/-- The `deleted_policy_ids` set accumulated by `process_events`
(scheduler.py:145-150) across a batch of (event, outcome) pairs. -/
def deleted_policy_ids (batch : List (SchedEvent × ExecOutcome)) :
    List String :=
  (batch.filter fun p => collectsDeleted p.2).map fun p => p.1.policyId

/-- Python truthiness of `event[ \x27cron\x27 ]` (scheduler.py:174): `None`
and the empty string are falsy. -/
def cronTruthy (cron : Option String) : Bool :=
  match cron with
  | none => false
  | some c => !c.isEmpty

/-- Embedding of `scheduler.add_cron_events` (scheduler.py:156-180): keep the
events whose `cron` is truthy and whose `policyId` is not in
`deleted_policy_ids`, replacing each trigger by `next_cron_occurrence(cron)`.
`next_cron_occurrence` lives in `otter/models/interface.py`, absent from the
tree, and is passed here as the function `nextCron`. -/
def add_cron_events (nextCron : String → Rat) (events : List SchedEvent)
    (deleted : List String) : List SchedEvent :=
  events.filterMap fun event =>
    if cronTruthy event.cron ∧ event.policyId ∉ deleted then
      some { event with trigger := nextCron ((event.cron).getD "") }
    else
      none

/-- The events re-inserted after `process_events` ran a batch
(scheduler.py:128-153): `add_cron_events` applied to the batch events with
the deleted-policy set collected by the `execute_event` errbacks. -/
def process_events_readded (nextCron : String → Rat)
    (batch : List (SchedEvent × ExecOutcome)) : List SchedEvent :=
  add_cron_events nextCron (batch.map fun p => p.1)
    (deleted_policy_ids batch)

/-! ## Self-heal: `otter/convergence/selfheal.py` -/

/-- Ordering of lock children by their trailing 10-character sequence number:
Python `sorted(children, key=lambda c: c[-10:])` compares the last 10
characters (the whole name when shorter) lexicographically.  `String.takeRight`
has exactly the `c[-10:]` behaviour. -/
def seqLe (a b : String) : Prop :=
  a.takeRight 10 ≤ b.takeRight 10

instance : DecidableRel seqLe := fun a b =>
  inferInstanceAs (Decidable (a.takeRight 10 ≤ b.takeRight 10))

instance : IsTotal String seqLe := ⟨fun a b => le_total (a.takeRight 10) (b.takeRight 10)⟩

instance : IsTrans String seqLe := ⟨fun _ _ _ hab hbc => le_trans hab hbc⟩

/-- Embedding of Python `sorted(children, key=lambda c: c[-10:])`
(selfheal.py:172) as a stable sort by the suffix order. -/
def sortBySeq (children : List String) : List String :=
  children.insertionSort seqLe

/-- Embedding of `selfheal.is_lock_acquired_eff` (selfheal.py:158-172): with
the children of the lock path in hand, report not-held when there are none,
otherwise compare the name of the lowest-sequence child, with its 10-character
suffix stripped (`[:-10]`, which `String.dropRight` matches), against the lock
node name prefix. -/
def is_lock_acquired_eff (lockPrefix : String) (children : List String) :
    Bool :=
  match sortBySeq children with
  | [] => false
  | c :: _ => c.dropRight 10 == lockPrefix

/-- Embedding of `SelfHeal.__init__` setting `self.time_range = interval - 5`
(selfheal.py:41). -/
def selfHealTimeRange (interval : Rat) : Rat :=
  interval - 5

/-- Embedding of `SelfHeal._setup_converges` scheduling (selfheal.py:85-99):
`wait_time = float(self.time_range) / len(groups)` and group `i` is scheduled
at `i * wait_time`.  Python float arithmetic is embedded as exact rational
arithmetic; the result pairs each group with its delay. -/
def setup_converges_calls {α : Type} (time_range : Rat) (groups : List α) :
    List (Rat × α) :=
  let wait_time : Rat := time_range / groups.length
  groups.enum.map fun ig => (ig.1 * wait_time, ig.2)

/-! ## Convergence planner

Modelled from the spec: `otter/convergence/__init__.py` (the pure planner
`converge(desired, servers, lbNodes, now)`) is absent from the tree; only its
tests (`otter/test/test_convergence.py`) are present.  The definitions below
follow spec section 4.G — partition servers into errored / building / active
by state and build timeout, delete errored servers with their LB memberships,
create up to the desired count, scale down preferring building servers then
the oldest active ones, and diff the LB state of the remaining active
servers — and reproduce the behaviour the tests pin down. -/

/-- Nova server states the planner distinguishes. -/
inductive ServerState where
  | active
  | build
  | error
  deriving DecidableEq

/-- Load-balancer node configuration; the defaults `weight=1`,
`condition=ENABLED`, `type=PRIMARY` are the ones `LBConfig` carries. -/
inductive NodeCondition where
  | enabled
  | disabled
  | draining
  deriving DecidableEq

/-- Load-balancer node type. -/
inductive NodeType where
  | primary
  | secondary
  deriving DecidableEq

/-- Desired load-balancer configuration of a server (`LBConfig`). -/
structure LBConfig where
  lb_id : Nat
  port : Nat
  weight : Nat := 1
  condition : NodeCondition := .enabled
  type : NodeType := .primary
  deriving DecidableEq

/-- Observed load-balancer node (`LBNode`). -/
structure LBNode where
  node_id : Nat
  address : String
  config : LBConfig
  deriving DecidableEq

/-- Observed Nova server (`NovaServer`): id, state, creation time in seconds,
optional servicenet address, desired LB configurations. -/
structure NovaServer where
  id : String
  state : ServerState
  created : Int
  servicenet_address : Option String := none
  desired_lbs : List LBConfig := []
  deriving DecidableEq

/-- Convergence steps (the launch config is opaque and omitted from
`createServer`). -/
inductive Step where
  | createServer
  | deleteServer (server_id : String)
  | addToLoadBalancer (loadbalancer_id : Nat) (address : String) (port : Nat)
      (condition : NodeCondition) (type : NodeType) (weight : Nat)
  | changeLoadBalancerNode (loadbalancer_id : Nat) (node_id : Nat)
      (weight : Nat) (condition : NodeCondition) (type : NodeType)
  | removeFromLoadBalancer (loadbalancer_id : Nat) (node_id : Nat)
  deriving DecidableEq

/-- A server is building iff its state is BUILD and it has not yet hit the
build timeout (spec 4.G). -/
def isBuilding (timeout now : Int) (s : NovaServer) : Bool :=
  s.state == .build && decide (now - s.created < timeout)

/-- A server is errored iff its state is ERROR, or its state is BUILD and the
build timed out (spec 4.G). -/
def isErrored (timeout now : Int) (s : NovaServer) : Bool :=
  s.state == .error || (s.state == .build && decide (timeout ≤ now - s.created))

/-- The building servers of the observation. -/
def buildingServers (timeout now : Int) (servers : List NovaServer) :
    List NovaServer :=
  servers.filter (isBuilding timeout now)

/-- The active servers of the observation. -/
def activeServers (servers : List NovaServer) : List NovaServer :=
  servers.filter fun s => s.state == .active

/-- The errored servers of the observation. -/
def erroredServers (timeout now : Int) (servers : List NovaServer) :
    List NovaServer :=
  servers.filter (isErrored timeout now)

/-- Survivors: building and active servers, excluding errored ones
(spec 4.G step 3). -/
def survivors (timeout now : Int) (servers : List NovaServer) :
    List NovaServer :=
  buildingServers timeout now servers ++ activeServers servers

/-- Ordering of active servers by creation time, oldest first. -/
def createdLe (a b : NovaServer) : Prop :=
  a.created ≤ b.created

instance : DecidableRel createdLe := fun a b =>
  inferInstanceAs (Decidable (a.created ≤ b.created))

instance : IsTotal NovaServer createdLe := ⟨fun a b => le_total a.created b.created⟩

instance : IsTrans NovaServer createdLe := ⟨fun _ _ _ hab hbc => le_trans hab hbc⟩

/-- Scale-down selection (spec 4.G step 5): take `|survivors| - desired`
servers, building ones first (regardless of age), then active ones ordered by
creation time ascending. -/
def serversToDelete (timeout : Int) (desired : Nat) (now : Int)
    (servers : List NovaServer) : List NovaServer :=
  (buildingServers timeout now servers
      ++ (activeServers servers).insertionSort createdLe).take
    ((survivors timeout now servers).length - desired)

/-- The `RemoveFromLoadBalancer` steps for a server being deleted: one per
LB node whose address equals the servicenet address of the server; a server
without a servicenet address contributes none (spec 4.G steps 2 and 5 and the
edge policies). -/
def lbRemovalSteps (s : NovaServer) (lbNodes : List LBNode) : List Step :=
  match s.servicenet_address with
  | none => []
  | some addr =>
      (lbNodes.filter fun node => node.address == addr).map fun node =>
        .removeFromLoadBalancer node.config.lb_id node.node_id

/-- Embedding of `_converge_lb_state` (spec 4.G step 6, pinned by
`ConvergeLBStateTests`): desired configs missing from the current nodes yield
`AddToLoadBalancer`; matching `(lb_id, port)` pairs with differing
weight/condition/type yield `ChangeLoadBalancerNode`; current nodes whose
`(lb_id, port)` is not desired yield `RemoveFromLoadBalancer`. -/
def converge_lb_state (desired_lb_state : List LBConfig)
    (current_lb_state : List LBNode) (ip_address : String) : List Step :=
  let adds_changes : List Step := desired_lb_state.filterMap fun cfg =>
    match current_lb_state.find? fun node =>
        node.config.lb_id == cfg.lb_id && node.config.port == cfg.port with
    | none =>
        some (.addToLoadBalancer cfg.lb_id ip_address cfg.port cfg.condition
          cfg.type cfg.weight)
    | some node =>
        if node.config == cfg then
          none
        else
          some (.changeLoadBalancerNode cfg.lb_id node.node_id cfg.weight
            cfg.condition cfg.type)
  let removes : List Step := (current_lb_state.filter fun node =>
      !(desired_lb_state.any fun cfg =>
        node.config.lb_id == cfg.lb_id && node.config.port == cfg.port)).map
    fun node => .removeFromLoadBalancer node.config.lb_id node.node_id
  adds_changes ++ removes

/-- The LB steps of one active surviving server: its current LB state is the
set of LB nodes at its servicenet address; a server without an address
contributes nothing. -/
def serverLbSteps (lbNodes : List LBNode) (s : NovaServer) : List Step :=
  match s.servicenet_address with
  | none => []
  | some addr =>
      converge_lb_state s.desired_lbs
        (lbNodes.filter fun node => node.address == addr) addr

/-- Modelled from the spec: the convergence planner
`converge(desired, servers, lbNodes, now) -> Plan` of section 4.G, with the
build timeout as an explicit parameter (the spec defaults it to 3600).  The
plan is a multiset; the embedding emits it as a list whose order carries no
meaning. -/
def converge (timeout : Int) (desired : Nat) (servers : List NovaServer)
    (lbNodes : List LBNode) (now : Int) : List Step :=
  let errored := erroredServers timeout now servers
  let surv := survivors timeout now servers
  let toDelete := serversToDelete timeout desired now servers
  let createSteps : List Step :=
    List.replicate (desired - surv.length) .createServer
  let deleteSteps : List Step :=
    (errored ++ toDelete).flatMap fun s =>
      .deleteServer s.id :: lbRemovalSteps s lbNodes
  let lbSteps : List Step :=
    ((activeServers servers).filter fun s => !toDelete.contains s).flatMap
      (serverLbSteps lbNodes)
  createSteps ++ deleteSteps ++ lbSteps

/-- Counts the `DeleteServer` steps of a plan. -/
def countDeleteSteps (plan : List Step) : Nat :=
  plan.countP fun step =>
    match step with
    | .deleteServer _ => true
    | _ => false

/-- Concrete observation mixing one errored server with two active survivors,
used to evaluate the planner delete count. -/
def scaleDownWithErroredServers : List NovaServer :=
  [{ id := "err", state := .error, created := 0 },
   { id := "a", state := .active, created := 0 },
   { id := "b", state := .active, created := 1 }]

/-! ## Theorems -/

/-- Helper: the change-percent example of spec scenario 5. -/
theorem calculate_desired_3_50 : calculate_desired 3 (.changePercent 50) = 5 := by
  show (3:Int) + decimalRoundUp (((3:Int) : Rat) * ((50:Rat) / 100)) = 5
  have h1 : ((3:Int) : Rat) * ((50:Rat) / 100) = 3 / 2 := by push_cast; norm_num
  have h2 : ⌈(3:Rat) / 2⌉ = 2 := by
    rw [Int.ceil_eq_iff]
    norm_num
  rw [decimalRoundUp, h1, if_pos (by norm_num), h2]
  norm_num

/-- Claim C1, counterexample: with `minEntities = 0`, `maxEntities = 30` and
an unconstrained desired of 30, `constrain_desired` returns 30, which exceeds
the hard cap `MAX_ENTITIES = 25`: the configured `maxEntities` is used as
given, it is not reduced to the cap. -/
theorem C1_hard_cap_counterexample :
    constrain_desired 30
      { minEntities := 0, maxEntities := some 30, cooldown := 0 } = 30 ∧
    ¬ constrain_desired 30
      { minEntities := 0, maxEntities := some 30, cooldown := 0 }
        ≤ MAX_ENTITIES := by
  constructor
  · rfl
  · decide

/-- Helper: `constrain_desired` written with `Option.getD`. -/
theorem constrain_desired_eq_getD (desired : Int) (config : GroupConfig) :
    constrain_desired desired config
      = max (min desired (config.maxEntities.getD MAX_ENTITIES))
          config.minEntities := by
  unfold constrain_desired
  cases config.maxEntities <;> rfl

/-- Claim C1, amended: the clamped desired lies in
`[minEntities, max effectiveMax minEntities]` where
`effectiveMax = config.maxEntities` when set and `MAX_ENTITIES` otherwise;
the hard cap bounds the result only when `maxEntities` is unset. -/
theorem C1_clamp_bounds_amended (desired : Int) (config : GroupConfig) :
    config.minEntities ≤ constrain_desired desired config ∧
    constrain_desired desired config
      ≤ max (config.maxEntities.getD MAX_ENTITIES) config.minEntities ∧
    (config.maxEntities = none →
      constrain_desired desired config ≤ max MAX_ENTITIES config.minEntities) := by
  rw [constrain_desired_eq_getD]
  refine ⟨le_max_right _ _, max_le_max (min_le_right _ _) le_rfl,
    fun hnone => ?_⟩
  rw [hnone]
  exact max_le_max (min_le_right _ _) le_rfl

/-- Claim C1 witness: the amended clamp evaluated at a concrete input. -/
theorem C1_clamp_bounds_amended_witness :
    (1 : Int) ≤ constrain_desired 7 { minEntities := 1, maxEntities := none, cooldown := 0 } ∧
    constrain_desired 7 { minEntities := 1, maxEntities := none, cooldown := 0 }
      ≤ max ((none : Option Int).getD MAX_ENTITIES) 1 ∧
    ((none : Option Int) = none →
      constrain_desired 7 { minEntities := 1, maxEntities := none, cooldown := 0 }
        ≤ max MAX_ENTITIES 1) :=
  C1_clamp_bounds_amended 7 { minEntities := 1, maxEntities := none, cooldown := 0 }

/-- Claim C10: `constrain_desired` applies the maximum bound before the
minimum bound — the result is
`max (min desired maxBound) minEntities` with `maxBound` the configured
`maxEntities` when set and `MAX_ENTITIES` otherwise — so when `minEntities`
exceeds the maximum bound the minimum wins and the result is `minEntities`,
with no error raised. -/
theorem C10_min_wins_over_max (desired : Int) (config : GroupConfig) :
    constrain_desired desired config
      = max (min desired (config.maxEntities.getD MAX_ENTITIES))
          config.minEntities ∧
    (config.maxEntities.getD MAX_ENTITIES < config.minEntities →
      constrain_desired desired config = config.minEntities) := by
  refine ⟨constrain_desired_eq_getD desired config, fun hlt => ?_⟩
  rw [constrain_desired_eq_getD, max_eq_right]
  exact le_of_lt (lt_of_le_of_lt (min_le_right _ _) hlt)

/-- Claim C10 witness: with `minEntities = 10` above `maxEntities = 5`, the
result is 10 for desired 7. -/
theorem C10_min_wins_over_max_witness :
    constrain_desired 7 { minEntities := 10, maxEntities := some 5, cooldown := 0 }
      = max (min 7 ((some (5:Int)).getD MAX_ENTITIES)) 10 ∧
    ((some (5:Int)).getD MAX_ENTITIES < 10 →
      constrain_desired 7 { minEntities := 10, maxEntities := some 5, cooldown := 0 }
        = 10) :=
  C10_min_wins_over_max 7 { minEntities := 10, maxEntities := some 5, cooldown := 0 }

/-- Rounding away from zero as the claim words it: ceiling for positive
values, floor for negative values, zero at zero (which also sends exact
halves away from zero). -/
def roundAwayFromZero (x : Rat) : Int :=
  if 0 < x then ⌈x⌉ else if x < 0 then ⌊x⌋ else 0

/-- Claim C5: for a non-negative current capacity and a `changePercent p`
policy, `calculate_desired` returns `current + delta` with
`delta = current * p / 100` rounded away from zero; in particular current 3
with `changePercent 50` yields 5. -/
theorem C5_change_percent_rounding (current : Nat) (p : Rat) :
    calculate_desired current (.changePercent p)
      = current + roundAwayFromZero (current * p / 100) ∧
    calculate_desired 3 (.changePercent 50) = 5 := by
  constructor
  · show (current : Int) + decimalRoundUp (current * (p / 100))
        = current + roundAwayFromZero (current * p / 100)
    have harg : (current : Rat) * (p / 100) = current * p / 100 :=
      (mul_div_assoc _ _ _).symm
    rw [harg]
    congr 1
    unfold decimalRoundUp roundAwayFromZero
    rcases lt_trichotomy (0 : Rat) (current * p / 100) with h | h | h
    · rw [if_pos (le_of_lt h), if_pos h]
    · rw [← h]
      simp
    · rw [if_neg (not_le.mpr h), if_neg (asymm h), if_pos h]
  · exact calculate_desired_3_50

/-- Helper: `check_cooldowns` fails exactly when a recorded timestamp is
within its cooldown. -/
theorem check_cooldowns_eq_false_iff (now : Rat) (state : GroupState)
    (config : GroupConfig) (policy : Policy) (policy_id : String) :
    check_cooldowns now state config policy policy_id = false ↔
      (∃ t, state.policy_touched.lookup policy_id = some t ∧
        now - t < policy.cooldown) ∨
      (∃ t, state.group_touched = some t ∧ now - t < config.cooldown) := by
  unfold check_cooldowns
  cases hp : state.policy_touched.lookup policy_id <;>
    cases hg : state.group_touched <;>
      simp [hp, hg]
  constructor
  · intro hab
    rcases lt_or_le (now - _) policy.cooldown with hc | hc
    · exact Or.inl hc
    · exact Or.inr (hab hc)
  · rintro (hc | hb)
    · exact fun ha => absurd hc (not_lt.mpr ha)
    · exact fun _ => hb

/-- Claim C4: `maybe_execute_scaling_policy` fails with
`CannotExecutePolicy` exactly when some prior timestamp exists among
`(policyTouched[policyId], policy.cooldown)` and
`(groupTouched, config.cooldown)` with `now - prior < cooldown`; otherwise
the policy executes: the new desired is the calculated desired constrained by
the config, and both touch timestamps become `now`. -/
theorem C4_cooldown_gate (now : Rat) (state : GroupState)
    (config : GroupConfig) (policy : Policy) (policy_id : String) :
    (maybe_execute_scaling_policy now state config policy policy_id
        = .error .cannotExecutePolicy ↔
      (∃ t, state.policy_touched.lookup policy_id = some t ∧
        now - t < policy.cooldown) ∨
      (∃ t, state.group_touched = some t ∧ now - t < config.cooldown)) ∧
    (∀ s1, maybe_execute_scaling_policy now state config policy policy_id
        = .ok s1 →
      s1.desired
          = constrain_desired (calculate_desired state.desired policy.adjustment)
              config ∧
      s1.policy_touched.lookup policy_id = some now ∧
      s1.group_touched = some now) := by
  by_cases hcc : check_cooldowns now state config policy policy_id
  · constructor
    · rw [← check_cooldowns_eq_false_iff now state config policy policy_id]
      simp [maybe_execute_scaling_policy, hcc]
    · intro s1 hs1
      simp only [maybe_execute_scaling_policy, hcc, if_true] at hs1
      cases hs1
      refine ⟨rfl, ?_, rfl⟩
      simp [mark_executed, List.lookup]
  · constructor
    · rw [← check_cooldowns_eq_false_iff now state config policy policy_id]
      simp [maybe_execute_scaling_policy, hcc, Bool.eq_false_iff]
    · intro s1 hs1
      simp [maybe_execute_scaling_policy, hcc] at hs1

/-- Claim C4 witness: a policy touched at time 0 with cooldown 60 cannot
re-execute at time 30. -/
theorem C4_cooldown_gate_witness :
    maybe_execute_scaling_policy 30
        { desired := 1, policy_touched := [("p", 0)], group_touched := some 0 }
        { minEntities := 0, maxEntities := some 10, cooldown := 0 }
        { cooldown := 60, adjustment := .change 2 } "p"
      = .error .cannotExecutePolicy :=
  (C4_cooldown_gate 30
    { desired := 1, policy_touched := [("p", 0)], group_touched := some 0 }
    { minEntities := 0, maxEntities := some 10, cooldown := 0 }
    { cooldown := 60, adjustment := .change 2 } "p").1.mpr
    (Or.inl ⟨0, by norm_num [List.lookup]⟩)

/-- Claim C3, counterexample: with a request function that always answers
401, the composed `request_with_auth` pipeline issues exactly one request —
the response in `reauth_codes` does not cause the request to be driven a
second time, so the batch is not "re-driven exactly once". -/
theorem C3_reauth_no_redrive_counterexample :
    countRequests (request_with_auth (fun _ => { code := 401, content := "badauth" })
        [("x-auth-token", "first-token")] (some [("base", "header")])
        [401, 403]).2 = 1 ∧
    countRequests (request_with_auth (fun _ => { code := 401, content := "badauth" })
        [("x-auth-token", "first-token")] (some [("base", "header")])
        [401, 403]).2 ≠ 2 := by
  constructor
  · rfl
  · decide

/-- Claim C3, amended: for every request through `request_with_auth`, exactly
one request is issued (the layer never re-drives); when the response status is
in `reauth_codes` the cached auth entry is invalidated and the response is
returned as is, and when it is not, the cache entry is untouched and the
response is returned as is. -/
theorem C3_invalidate_without_redrive
    (get_request : List (String × String) → HttpResult)
    (auth_headers : List (String × String))
    (headers : Option (List (String × String))) (reauth_codes : List Nat) :
    (request_with_auth get_request auth_headers headers reauth_codes).1
        = get_request (mergeHeaders (headers.getD []) auth_headers) ∧
    countRequests
        (request_with_auth get_request auth_headers headers reauth_codes).2
      = 1 ∧
    (HttpEvent.invalidate
        ∈ (request_with_auth get_request auth_headers headers reauth_codes).2 ↔
      (get_request (mergeHeaders (headers.getD []) auth_headers)).code
        ∈ reauth_codes) := by
  by_cases hc : (get_request (mergeHeaders (headers.getD []) auth_headers)).code
      ∈ reauth_codes <;>
    simp [request_with_auth, auth_request, refresh_auth_on_error, hc,
      countRequests]

/-- Claim C3 witness: the amended statement at a 200 response. -/
theorem C3_invalidate_without_redrive_witness :
    (request_with_auth (fun _ => { code := 200, content := "ok" })
        [("a", "b")] none [401, 403]).1
        = (fun _ => ({ code := 200, content := "ok" } : HttpResult))
            (mergeHeaders ((none : Option (List (String × String))).getD [])
              [("a", "b")]) ∧
    countRequests (request_with_auth (fun _ => { code := 200, content := "ok" })
        [("a", "b")] none [401, 403]).2 = 1 ∧
    (HttpEvent.invalidate
        ∈ (request_with_auth (fun _ => { code := 200, content := "ok" })
            [("a", "b")] none [401, 403]).2 ↔
      ((fun _ => ({ code := 200, content := "ok" } : HttpResult))
          (mergeHeaders ((none : Option (List (String × String))).getD [])
            [("a", "b")])).code ∈ [401, 403]) :=
  C3_invalidate_without_redrive (fun _ => { code := 200, content := "ok" })
    [("a", "b")] none [401, 403]

/-- Claim C8: `update_stack` fails with `UpdateInProgressError` exactly when
the orchestration service answers 409, or 400 with a JSON body whose
`error.message` starts with the in-progress pattern; a 202 succeeds, and any
other API error is propagated unchanged. -/
theorem C8_update_in_progress_classification (response : HeatResponse) :
    (update_stack response = .error .updateInProgress ↔
      response.code = 409 ∨
        (response.code = 400 ∧ ∃ m, response.errorMessage = some m ∧
          m.startsWith updateInProgressMessage = true)) ∧
    (response.code = 202 → update_stack response = .ok ()) ∧
    (response.code ≠ 202 →
      ¬(response.code = 409 ∨
        (response.code = 400 ∧ ∃ m, response.errorMessage = some m ∧
          m.startsWith updateInProgressMessage = true)) →
      update_stack response = .error (.apiError response.code response.errorMessage)) := by
  obtain ⟨code, msg?⟩ := response
  by_cases h202 : code = 202
  · subst h202
    refine ⟨?_, fun _ => rfl, fun h _ => absurd rfl h⟩
    simp [update_stack, check_success]
  · have hcs : check_success [202] ⟨code, msg?⟩
        = .error (.apiError code msg?) := by
      simp [check_success, h202]
    by_cases h400 : code = 400
    · subst h400
      cases msg? with
      | none =>
          refine ⟨?_, fun h => absurd h h202, fun _ h => ?_⟩ <;>
            simp [update_stack, hcs, check_update_in_progress,
              raise_error_on_code]
      | some msg =>
          by_cases hsw : msg.startsWith updateInProgressMessage
          · refine ⟨?_, fun h => absurd h h202, fun _ h => ?_⟩
            · simp [update_stack, hcs, check_update_in_progress, hsw,
                raise_error_on_code]
            · exact absurd (Or.inr ⟨rfl, msg, rfl, hsw⟩) h
          · refine ⟨?_, fun h => absurd h h202, fun _ _ => ?_⟩ <;>
              simp [update_stack, hcs, check_update_in_progress, hsw,
                raise_error_on_code]
    · by_cases h409 : code = 409
      · subst h409
        refine ⟨?_, fun h => absurd h h202, fun _ h => ?_⟩
        · simp [update_stack, hcs, check_update_in_progress, h400,
            raise_error_on_code]
        · exact absurd (Or.inl rfl) h
      · refine ⟨?_, fun h => absurd h h202, fun _ _ => ?_⟩ <;>
          simp [update_stack, hcs, check_update_in_progress, h400,
            raise_error_on_code, h409]

/-- Claim C8 witness: a 409 answer is classified as update-in-progress. -/
theorem C8_update_in_progress_classification_witness :
    update_stack { code := 409, errorMessage := none }
      = .error .updateInProgress :=
  (C8_update_in_progress_classification
    { code := 409, errorMessage := none }).1.mpr (Or.inl rfl)

/-- Helper: a policy id avoids the deleted set exactly when no event of the
batch with a group/policy-deleted outcome carries it. -/
theorem not_mem_deleted_policy_ids_iff
    (batch : List (SchedEvent × ExecOutcome)) (pid : String) :
    pid ∉ deleted_policy_ids batch ↔
      ∀ e2 r2, (e2, r2) ∈ batch → collectsDeleted r2 = true →
        e2.policyId ≠ pid := by
  simp only [deleted_policy_ids, List.mem_map, List.mem_filter, not_exists]
  constructor
  · intro h e2 r2 hmem hdel heq
    exact h (e2, r2) ⟨⟨hmem, hdel⟩, heq⟩
  · rintro h ⟨e2, r2⟩ ⟨⟨hmem, hdel⟩, heq⟩
    exact h e2 r2 hmem hdel heq

/-- Claim C6: after a batch has been executed, the re-inserted events are
exactly those of the batch whose cron field is set (truthy) and whose policy
id was not recorded as deleted by a `NoSuchScalingGroup` or `NoSuchPolicy`
outcome, with trigger replaced by the next cron occurrence; events without a
cron, and cron events of a deleted policy or group, are not re-added. -/
theorem C6_cron_events_readded (nextCron : String → Rat)
    (batch : List (SchedEvent × ExecOutcome)) (ev : SchedEvent) :
    ev ∈ process_events_readded nextCron batch ↔
      ∃ e r, (e, r) ∈ batch ∧ cronTruthy e.cron = true ∧
        (∀ e2 r2, (e2, r2) ∈ batch → collectsDeleted r2 = true →
          e2.policyId ≠ e.policyId) ∧
        ev = { e with trigger := nextCron ((e.cron).getD "") } := by
  unfold process_events_readded add_cron_events
  rw [List.mem_filterMap]
  constructor
  · rintro ⟨e, he, heq⟩
    obtain ⟨⟨e2, r2⟩, hmem, rfl⟩ := List.mem_map.mp he
    split_ifs at heq with hcond
    · obtain ⟨hcron, hnotdel⟩ := hcond
      injection heq with heq
      exact ⟨e2, r2, hmem, hcron,
        (not_mem_deleted_policy_ids_iff batch e2.policyId).mp hnotdel,
        heq.symm⟩
  · rintro ⟨e, r, hmem, hcron, hnodel, rfl⟩
    refine ⟨e, List.mem_map.mpr ⟨(e, r), hmem, rfl⟩, ?_⟩
    rw [if_pos]
    exact ⟨hcron,
      (not_mem_deleted_policy_ids_iff batch e.policyId).mpr hnodel⟩

/-- Claim C6 witness: a minute-cron event of a live policy is re-added with
the next occurrence while the event of a deleted policy is dropped. -/
theorem C6_cron_events_readded_witness :
    ({ tenantId := "t", groupId := "g", policyId := "p1", trigger := 60,
       cron := some "* * * * *", version := 1 } : SchedEvent)
      ∈ process_events_readded (fun _ => 60)
        [({ tenantId := "t", groupId := "g", policyId := "p1", trigger := 0,
            cron := some "* * * * *", version := 1 }, ExecOutcome.ok),
         ({ tenantId := "t", groupId := "g", policyId := "p2", trigger := 0,
            cron := some "* * * * *", version := 1 },
          ExecOutcome.noSuchPolicy)] :=
  (C6_cron_events_readded (fun _ => 60)
    [({ tenantId := "t", groupId := "g", policyId := "p1", trigger := 0,
        cron := some "* * * * *", version := 1 }, ExecOutcome.ok),
     ({ tenantId := "t", groupId := "g", policyId := "p2", trigger := 0,
        cron := some "* * * * *", version := 1 },
      ExecOutcome.noSuchPolicy)]
    { tenantId := "t", groupId := "g", policyId := "p1", trigger := 60,
      cron := some "* * * * *", version := 1 }).mpr
    ⟨{ tenantId := "t", groupId := "g", policyId := "p1", trigger := 0,
       cron := some "* * * * *", version := 1 }, ExecOutcome.ok,
      by decide, by decide,
      (not_mem_deleted_policy_ids_iff
        [({ tenantId := "t", groupId := "g", policyId := "p1", trigger := 0,
            cron := some "* * * * *", version := 1 }, ExecOutcome.ok),
         ({ tenantId := "t", groupId := "g", policyId := "p2", trigger := 0,
            cron := some "* * * * *", version := 1 },
          ExecOutcome.noSuchPolicy)] "p1").mp (by decide),
      by decide⟩

/-- Claim C7: with pairwise-distinct sequence suffixes (ZooKeeper sequence
numbers are unique), `is_lock_acquired_eff` reports the lock held iff the
lock path has at least one child and the child with the lowest 10-character
sequence suffix, stripped of that suffix, equals the lock prefix; with no
children it reports not held. -/
theorem C7_lock_lowest_sequence (lockPrefix : String) (children : List String)
    (hdistinct : children.Pairwise fun a b => a.takeRight 10 ≠ b.takeRight 10) :
    (is_lock_acquired_eff lockPrefix children = true ↔
      children ≠ [] ∧ ∃ c ∈ children, (∀ c2 ∈ children, seqLe c c2) ∧
        c.dropRight 10 = lockPrefix) ∧
    is_lock_acquired_eff lockPrefix [] = false := by
  refine ⟨?_, rfl⟩
  have hperm0 : (sortBySeq children).Perm children :=
    List.perm_insertionSort seqLe children
  have hsorted0 : List.Sorted seqLe (sortBySeq children) :=
    List.sorted_insertionSort seqLe children
  unfold is_lock_acquired_eff
  cases hs : sortBySeq children with
  | nil =>
      rw [hs] at hperm0
      have hnil : children = [] := List.Perm.eq_nil hperm0.symm
      simp [hnil]
  | cons c0 rest =>
      rw [hs] at hperm0 hsorted0
      have hperm : (c0 :: rest).Perm children := hperm0
      have hsorted : List.Sorted seqLe (c0 :: rest) := hsorted0
      have hmem0 : c0 ∈ children := hperm.subset (List.mem_cons_self c0 rest)
      have hmin : ∀ x ∈ children, seqLe c0 x := by
        intro x hx
        rcases List.mem_cons.mp (hperm.mem_iff.mpr hx) with rfl | hxr
        · exact le_refl _
        · exact List.rel_of_sorted_cons hsorted x hxr
      constructor
      · intro hbeq
        exact ⟨List.ne_nil_of_mem hmem0, c0, hmem0, hmin, eq_of_beq hbeq⟩
      · rintro ⟨hne, c, hc, hcmin, hstrip⟩
        have hceq : c = c0 := by
          by_contra hne2
          exact hdistinct.forall (fun a b hab => (hab ∘ Eq.symm)) hc hmem0 hne2
            (le_antisymm (hcmin c0 hmem0) (hmin c hc))
        have hstrip0 : c0.dropRight 10 = lockPrefix := hceq ▸ hstrip
        show (c0.dropRight 10 == lockPrefix) = true
        rw [hstrip0]
        exact beq_self_eq_true lockPrefix

/-- Claim C7 witness: with two children, the lock whose child carries the
lowest sequence number is reported held. -/
theorem C7_lock_lowest_sequence_witness :
    (is_lock_acquired_eff "lockp-" ["lockp-0000000001", "abcde-0000000002"]
        = true ↔
      (["lockp-0000000001", "abcde-0000000002"] : List String) ≠ [] ∧
      ∃ c ∈ ["lockp-0000000001", "abcde-0000000002"],
        (∀ c2 ∈ ["lockp-0000000001", "abcde-0000000002"], seqLe c c2) ∧
        c.dropRight 10 = "lockp-") ∧
    is_lock_acquired_eff "lockp-" [] = false :=
  C7_lock_lowest_sequence "lockp-" ["lockp-0000000001", "abcde-0000000002"]
    (by decide)

/-- Claim C9: for a non-empty list of `n` eligible groups,
`_setup_converges` schedules the group at position `i` at delay
`i * (interval - 5) / n` seconds, which lies in `[0, interval - 5)` whenever
the window is non-degenerate (`interval > 5`). -/
theorem C9_selfheal_distribution {α : Type} (interval : Rat)
    (groups : List α) (i : Nat) (hi : i < groups.length)
    (hw : 5 < interval) :
    ∃ d g,
      (setup_converges_calls (selfHealTimeRange interval) groups)[i]?
          = some (d, g) ∧
      d = i * (interval - 5) / groups.length ∧
      0 ≤ d ∧ d < interval - 5 := by
  have hlen : (0 : Rat) < groups.length := by
    have hpos : 0 < groups.length := Nat.lt_of_le_of_lt (Nat.zero_le i) hi
    exact_mod_cast hpos
  refine ⟨i * (interval - 5) / groups.length, groups[i], ?_, rfl, ?_, ?_⟩
  · unfold setup_converges_calls selfHealTimeRange
    rw [List.getElem?_map, List.getElem?_enum]
    rw [List.getElem?_eq_getElem hi]
    simp [mul_div_assoc]
  · have h5 : (0 : Rat) ≤ interval - 5 := by linarith
    positivity
  · have hlt : (i : Rat) < groups.length := by exact_mod_cast hi
    have htr : (0 : Rat) < interval - 5 := by linarith
    rw [div_lt_iff₀ hlen]
    calc (i : Rat) * (interval - 5)
        < groups.length * (interval - 5) := by
          exact mul_lt_mul_of_pos_right hlt htr
      _ = (interval - 5) * groups.length := mul_comm _ _

/-- Claim C9 witness: three groups in a 30-second interval are scheduled at
0, 25/3 and 50/3 seconds; position 2 is inside `[0, 25)`. -/
theorem C9_selfheal_distribution_witness :
    ∃ d g,
      (setup_converges_calls (selfHealTimeRange 30)
          ["g0", "g1", "g2"])[2]? = some (d, g) ∧
      d = 2 * ((30 : Rat) - 5) / (["g0", "g1", "g2"] : List String).length ∧
      0 ≤ d ∧ d < (30 : Rat) - 5 :=
  C9_selfheal_distribution 30 ["g0", "g1", "g2"] 2 (by decide) (by norm_num)

/-- Helper: members of the building partition are in BUILD state. -/
theorem state_of_mem_buildingServers {timeout now : Int}
    {servers : List NovaServer} {s : NovaServer}
    (h : s ∈ buildingServers timeout now servers) :
    s.state = ServerState.build := by
  have h2 := (List.mem_filter.mp h).2
  unfold isBuilding at h2
  exact eq_of_beq ((Bool.and_eq_true _ _).mp h2).1

/-- Helper: members of the active partition are in ACTIVE state. -/
theorem state_of_mem_activeServers {servers : List NovaServer}
    {s : NovaServer} (h : s ∈ activeServers servers) :
    s.state = ServerState.active :=
  eq_of_beq (List.mem_filter.mp h).2

/-- Helper: LB removal steps contain no `DeleteServer` step. -/
theorem countDeleteSteps_lbRemovalSteps (s : NovaServer)
    (lbNodes : List LBNode) :
    countDeleteSteps (lbRemovalSteps s lbNodes) = 0 := by
  cases hsa : s.servicenet_address with
  | none => simp [lbRemovalSteps, hsa, countDeleteSteps]
  | some addr =>
      simp only [lbRemovalSteps, hsa]
      unfold countDeleteSteps
      rw [List.countP_eq_zero]
      intro step hstep
      obtain ⟨node, _, rfl⟩ := List.mem_map.mp hstep
      simp

/-- Helper: the LB diff of one server contains no `DeleteServer` step. -/
theorem countDeleteSteps_converge_lb_state (d : List LBConfig)
    (c : List LBNode) (ip : String) :
    countDeleteSteps (converge_lb_state d c ip) = 0 := by
  have h : ∀ step ∈ converge_lb_state d c ip,
      (match step with
        | Step.deleteServer _ => true
        | _ => false) = false := by
    intro step hstep
    unfold converge_lb_state at hstep
    rcases List.mem_append.mp hstep with h | h
    · obtain ⟨cfg, _, hsome⟩ := List.mem_filterMap.mp h
      split at hsome
      · cases hsome
        rfl
      · split at hsome
        · cases hsome
        · cases hsome
          rfl
    · obtain ⟨node, _, rfl⟩ := List.mem_map.mp h
      rfl
  unfold countDeleteSteps
  exact List.countP_eq_zero.mpr fun a ha => by simp [h a ha]

/-- Helper: the LB steps of one surviving server contain no `DeleteServer`. -/
theorem countDeleteSteps_serverLbSteps (lbNodes : List LBNode)
    (s : NovaServer) :
    countDeleteSteps (serverLbSteps lbNodes s) = 0 := by
  cases hsa : s.servicenet_address with
  | none => simp [serverLbSteps, hsa, countDeleteSteps]
  | some addr =>
      simp only [serverLbSteps, hsa]
      exact countDeleteSteps_converge_lb_state _ _ _

/-- Helper: the LB section of the plan contains no `DeleteServer` step. -/
theorem countDeleteSteps_lbFlatMap (lbNodes : List LBNode)
    (l : List NovaServer) :
    countDeleteSteps (l.flatMap (serverLbSteps lbNodes)) = 0 := by
  induction l with
  | nil => rfl
  | cons s rest ih =>
      rw [List.flatMap_cons]
      unfold countDeleteSteps at ih ⊢
      rw [List.countP_append, ih]
      have h0 := countDeleteSteps_serverLbSteps lbNodes s
      unfold countDeleteSteps at h0
      rw [h0]

/-- Helper: the delete section of the plan carries exactly one `DeleteServer`
step per listed server. -/
theorem countDeleteSteps_deleteSection (lbNodes : List LBNode)
    (l : List NovaServer) :
    countDeleteSteps
        (l.flatMap fun s => Step.deleteServer s.id :: lbRemovalSteps s lbNodes)
      = l.length := by
  induction l with
  | nil => rfl
  | cons s rest ih =>
      rw [List.flatMap_cons]
      unfold countDeleteSteps at ih ⊢
      rw [List.countP_append, List.countP_cons, ih]
      have h0 := countDeleteSteps_lbRemovalSteps s lbNodes
      unfold countDeleteSteps at h0
      rw [h0]
      simp [Nat.add_comm]

/-- Claim C2, counterexample: with one errored server alongside two active
survivors and desired 1, the plan carries two `DeleteServer` steps (the
errored server is deleted too), not `|survivors| - desired = 1`. -/
theorem C2_delete_count_counterexample :
    1 < (survivors 3600 0 scaleDownWithErroredServers).length ∧
    countDeleteSteps (converge 3600 1 scaleDownWithErroredServers [] 0) = 2 ∧
    countDeleteSteps (converge 3600 1 scaleDownWithErroredServers [] 0)
      ≠ (survivors 3600 0 scaleDownWithErroredServers).length - 1 := by
  refine ⟨by decide, by decide, by decide⟩

/-- Claim C2, amended: in a scale-down (`|survivors| > desired`), the planner
selects exactly `|survivors| - desired` surviving servers for deletion —
building servers first regardless of age, then active servers ordered by
creation time, oldest first — each selected server receives a `DeleteServer`
step and one `RemoveFromLoadBalancer` step per LB node at its servicenet
address; the total number of `DeleteServer` steps of the plan is
`|errored| + (|survivors| - desired)`, which equals `|survivors| - desired`
exactly when no server is errored. -/
theorem C2_scale_down_selection (timeout : Int) (desired : Nat)
    (servers : List NovaServer) (lbNodes : List LBNode) (now : Int)
    (hover : desired < (survivors timeout now servers).length) :
    (serversToDelete timeout desired now servers).length
        = (survivors timeout now servers).length - desired ∧
    (∀ s ∈ serversToDelete timeout desired now servers,
        s ∈ survivors timeout now servers) ∧
    (∀ s ∈ serversToDelete timeout desired now servers,
        s.state = ServerState.active →
        ∀ b ∈ buildingServers timeout now servers,
          b ∈ serversToDelete timeout desired now servers) ∧
    (∀ a ∈ serversToDelete timeout desired now servers,
        a.state = ServerState.active →
        ∀ b ∈ activeServers servers,
          b ∉ serversToDelete timeout desired now servers →
          a.created ≤ b.created) ∧
    (∀ s ∈ serversToDelete timeout desired now servers,
        Step.deleteServer s.id ∈ converge timeout desired servers lbNodes now ∧
        ∀ node ∈ lbNodes, s.servicenet_address = some node.address →
          Step.removeFromLoadBalancer node.config.lb_id node.node_id
            ∈ converge timeout desired servers lbNodes now) ∧
    countDeleteSteps (converge timeout desired servers lbNodes now)
        = (erroredServers timeout now servers).length
          + ((survivors timeout now servers).length - desired) := by
  have hperm : (List.insertionSort createdLe (activeServers servers)).Perm
      (activeServers servers) :=
    List.perm_insertionSort createdLe (activeServers servers)
  have hsorted : List.Sorted createdLe
      (List.insertionSort createdLe (activeServers servers)) :=
    List.sorted_insertionSort createdLe (activeServers servers)
  have hsurv : survivors timeout now servers
      = buildingServers timeout now servers ++ activeServers servers := rfl
  have hSlen : (List.insertionSort createdLe (activeServers servers)).length
      = (activeServers servers).length := hperm.length_eq
  have hBS : (buildingServers timeout now servers
        ++ List.insertionSort createdLe (activeServers servers)).length
      = (survivors timeout now servers).length := by
    rw [hsurv, List.length_append, List.length_append, hSlen]
  have hnle : (survivors timeout now servers).length - desired
      ≤ (buildingServers timeout now servers
        ++ List.insertionSort createdLe (activeServers servers)).length := by
    rw [hBS]
    exact Nat.sub_le _ _
  have htd : serversToDelete timeout desired now servers
      = (buildingServers timeout now servers
          ++ List.insertionSort createdLe (activeServers servers)).take
        ((survivors timeout now servers).length - desired) := rfl
  have hlen1 : (serversToDelete timeout desired now servers).length
      = (survivors timeout now servers).length - desired := by
    rw [htd, List.length_take]
    exact min_eq_left hnle
  have hideB : ∀ s ∈ serversToDelete timeout desired now servers,
      s.state = ServerState.active →
      (buildingServers timeout now servers).length
        < (survivors timeout now servers).length - desired := by
    intro s hs hact
    by_contra hle
    rw [not_lt] at hle
    rw [htd, List.take_append_eq_append_take, Nat.sub_eq_zero_of_le hle,
      List.take_zero, List.append_nil] at hs
    have h1 := state_of_mem_buildingServers (List.mem_of_mem_take hs)
    rw [hact] at h1
    exact ServerState.noConfusion h1
  have htd2 : (buildingServers timeout now servers).length
        < (survivors timeout now servers).length - desired →
      serversToDelete timeout desired now servers
        = buildingServers timeout now servers
          ++ (List.insertionSort createdLe (activeServers servers)).take
            ((survivors timeout now servers).length - desired
              - (buildingServers timeout now servers).length) := by
    intro hlt
    rw [htd, List.take_append_eq_append_take,
      List.take_of_length_le (le_of_lt hlt)]
  refine ⟨hlen1, ?_, ?_, ?_, ?_, ?_⟩
  · intro s hs
    rw [htd] at hs
    have hmem := List.mem_of_mem_take hs
    rw [hsurv]
    rcases List.mem_append.mp hmem with h | h
    · exact List.mem_append_left _ h
    · exact List.mem_append_right _ (hperm.mem_iff.mp h)
  · intro s hs hact b hb
    rw [htd2 (hideB s hs hact)]
    exact List.mem_append_left _ hb
  · intro a ha hact b hbA hbnot
    have hlt := hideB a ha hact
    rw [htd2 hlt] at ha hbnot
    have haS : a ∈ (List.insertionSort createdLe (activeServers servers)).take
        ((survivors timeout now servers).length - desired
          - (buildingServers timeout now servers).length) := by
      rcases List.mem_append.mp ha with h | h
      · have h1 := state_of_mem_buildingServers h
        rw [hact] at h1
        exact absurd h1 (fun hcon => ServerState.noConfusion hcon)
      · exact h
    have hbS : b ∈ List.insertionSort createdLe (activeServers servers) :=
      hperm.mem_iff.mpr hbA
    have hbtake : b ∉ (List.insertionSort createdLe (activeServers servers)).take
        ((survivors timeout now servers).length - desired
          - (buildingServers timeout now servers).length) :=
      fun h => hbnot (List.mem_append_right _ h)
    have hbdrop : b ∈ (List.insertionSort createdLe (activeServers servers)).drop
        ((survivors timeout now servers).length - desired
          - (buildingServers timeout now servers).length) := by
      rw [← List.take_append_drop
        ((survivors timeout now servers).length - desired
          - (buildingServers timeout now servers).length)
        (List.insertionSort createdLe (activeServers servers))] at hbS
      rcases List.mem_append.mp hbS with h | h
      · exact absurd h hbtake
      · exact h
    have hpw : List.Pairwise createdLe
        ((List.insertionSort createdLe (activeServers servers)).take
            ((survivors timeout now servers).length - desired
              - (buildingServers timeout now servers).length)
          ++ (List.insertionSort createdLe (activeServers servers)).drop
            ((survivors timeout now servers).length - desired
              - (buildingServers timeout now servers).length)) := by
      rw [List.take_append_drop]
      exact hsorted
    exact (List.pairwise_append.mp hpw).2.2 a haS b hbdrop
  · intro s hs
    have hsmem : s ∈ erroredServers timeout now servers
        ++ serversToDelete timeout desired now servers :=
      List.mem_append_right _ hs
    constructor
    · simp only [converge]
      refine List.mem_append_left _ (List.mem_append_right _ ?_)
      exact List.mem_flatMap.mpr ⟨s, hsmem, List.mem_cons_self _ _⟩
    · intro node hnode hmatch
      simp only [converge]
      refine List.mem_append_left _ (List.mem_append_right _ ?_)
      refine List.mem_flatMap.mpr ⟨s, hsmem, List.mem_cons_of_mem _ ?_⟩
      simp only [lbRemovalSteps, hmatch]
      refine List.mem_map.mpr ⟨node, List.mem_filter.mpr ⟨hnode, ?_⟩, rfl⟩
      simp
  · have hsplit : ∀ x y z : List Step,
        countDeleteSteps (x ++ y ++ z)
          = countDeleteSteps x + countDeleteSteps y + countDeleteSteps z := by
      intro x y z
      unfold countDeleteSteps
      rw [List.countP_append, List.countP_append]
    have hk : desired - (survivors timeout now servers).length = 0 :=
      Nat.sub_eq_zero_of_le (le_of_lt hover)
    have h1 : countDeleteSteps
        (List.replicate (desired - (survivors timeout now servers).length)
          Step.createServer) = 0 := by
      rw [hk]
      rfl
    have h2 := countDeleteSteps_deleteSection lbNodes
      (erroredServers timeout now servers
        ++ serversToDelete timeout desired now servers)
    have h3 := countDeleteSteps_lbFlatMap lbNodes
      ((activeServers servers).filter fun s =>
        !(serversToDelete timeout desired now servers).contains s)
    simp only [converge]
    rw [hsplit, h1, h2, h3, List.length_append, hlen1]
    omega

/-- Claim C2 witness: the amended statement evaluated on one errored and two
active servers with desired 1. -/
theorem C2_scale_down_selection_witness :
    (serversToDelete 3600 1 0 scaleDownWithErroredServers).length
        = (survivors 3600 0 scaleDownWithErroredServers).length - 1 ∧
    (∀ s ∈ serversToDelete 3600 1 0 scaleDownWithErroredServers,
        s ∈ survivors 3600 0 scaleDownWithErroredServers) ∧
    (∀ s ∈ serversToDelete 3600 1 0 scaleDownWithErroredServers,
        s.state = ServerState.active →
        ∀ b ∈ buildingServers 3600 0 scaleDownWithErroredServers,
          b ∈ serversToDelete 3600 1 0 scaleDownWithErroredServers) ∧
    (∀ a ∈ serversToDelete 3600 1 0 scaleDownWithErroredServers,
        a.state = ServerState.active →
        ∀ b ∈ activeServers scaleDownWithErroredServers,
          b ∉ serversToDelete 3600 1 0 scaleDownWithErroredServers →
          a.created ≤ b.created) ∧
    (∀ s ∈ serversToDelete 3600 1 0 scaleDownWithErroredServers,
        Step.deleteServer s.id
            ∈ converge 3600 1 scaleDownWithErroredServers [] 0 ∧
        ∀ node ∈ ([] : List LBNode),
          s.servicenet_address = some node.address →
          Step.removeFromLoadBalancer node.config.lb_id node.node_id
            ∈ converge 3600 1 scaleDownWithErroredServers [] 0) ∧
    countDeleteSteps (converge 3600 1 scaleDownWithErroredServers [] 0)
        = (erroredServers 3600 0 scaleDownWithErroredServers).length
          + ((survivors 3600 0 scaleDownWithErroredServers).length - 1) :=
  C2_scale_down_selection 3600 1 scaleDownWithErroredServers [] 0 (by decide)

end Otter
